import Mathlib

/-!
Verification of the BotTrade per-symbol streaming analytics core.

Shallow embedding of the Python sources under `src/core/`
(`models.py`, `patterns.py`, `pivot_detector.py`, `trend_analyzer.py`,
`indicators.py`, `signal_engine.py`, `backtest.py`) over exact rational
arithmetic (`ℚ` in place of Python floats).  Timestamps are modelled as
integers; display formatting of numbers inside reason strings is
abstracted to `toString`, while the fixed textual parts of every message
are kept verbatim.
-/

namespace BotTrade

/-! ## Data model (`src/core/models.py`) -/

inductive SignalType where
  | BUY
  | SELL
  deriving DecidableEq, Repr

inductive SignalStatus where
  | ACTIVE
  | TP_HIT
  | SL_HIT
  | CANCELLED
  | BREAKEVEN
  deriving DecidableEq, Repr

inductive PivotType where
  | HIGH
  | LOW
  deriving DecidableEq, Repr

inductive CandlePattern where
  | HAMMER
  | BULLISH_ENGULFING
  | SHOOTING_STAR
  | BEARISH_ENGULFING
  deriving DecidableEq, Repr

/-- OHLCV bar (`models.Bar`).  The Python field `open` is `open_` here
because `open` is a Lean keyword. -/
structure Bar where
  symbol : String
  timeframe : String
  timestamp : ℤ
  open_ : ℚ
  high : ℚ
  low : ℚ
  close : ℚ
  volume : ℚ := 0
  deriving DecidableEq, Repr

def Bar.is_bullish (b : Bar) : Bool := b.close > b.open_

def Bar.is_bearish (b : Bar) : Bool := b.close < b.open_

def Bar.body_size (b : Bar) : ℚ := |b.close - b.open_|

def Bar.upper_shadow (b : Bar) : ℚ := b.high - max b.open_ b.close

def Bar.lower_shadow (b : Bar) : ℚ := min b.open_ b.close - b.low

def Bar.total_range (b : Bar) : ℚ := b.high - b.low

/-- The data-model invariant on stored bars:
`low ≤ min(open, close) ≤ max(open, close) ≤ high`. -/
def Bar.WellFormed (b : Bar) : Prop :=
  b.low ≤ min b.open_ b.close ∧ max b.open_ b.close ≤ b.high

instance (b : Bar) : Decidable b.WellFormed := by
  unfold Bar.WellFormed; infer_instance

/-- Pivot point (`models.Pivot`). -/
structure Pivot where
  type : PivotType
  price : ℚ
  timestamp : ℤ
  bar_index : ℕ
  pattern : CandlePattern
  deriving DecidableEq, Repr

/-- Support zone around a pivot low (`models.SupportZone`). -/
structure SupportZone where
  pivot : Pivot
  zone_low : ℚ
  zone_high : ℚ
  deriving DecidableEq, Repr

def SupportZone.contains_price (z : SupportZone) (low high : ℚ) : Bool :=
  low ≤ z.zone_high && high ≥ z.zone_low

/-- Trading signal (`models.Signal`).  The `__post_init__` adjustment of
`original_sl` is performed by `mkSignal` below. -/
structure Signal where
  id : Option ℕ := none
  symbol : String := ""
  signal_type : SignalType := SignalType.BUY
  timestamp : ℤ := 0
  entry : ℚ := 0
  stop_loss : ℚ := 0
  take_profit : ℚ := 0
  quantity : ℤ := 1
  status : SignalStatus := SignalStatus.ACTIVE
  reason : String := ""
  original_sl : ℚ := 0
  deriving DecidableEq, Repr

/-- Python `Signal.__post_init__`: if `original_sl == 0.0`, set it to `stop_loss`. -/
def mkSignal (s : Signal) : Signal :=
  if s.original_sl = 0 then { s with original_sl := s.stop_loss } else s

def Signal.risk (s : Signal) : ℚ := |s.entry - s.stop_loss|

def Signal.reward (s : Signal) : ℚ := |s.take_profit - s.entry|

/-- Python `Signal.breakeven_price`: `entry + risk` (1R profit). -/
def Signal.breakeven_price (s : Signal) : ℚ := s.entry + s.risk

/-- Python `Signal.should_move_to_breakeven`. -/
def Signal.should_move_to_breakeven (s : Signal) (current_price : ℚ) : Bool :=
  if s.status ≠ SignalStatus.ACTIVE then false
  else if s.stop_loss ≥ s.entry then false  -- already at breakeven
  else current_price ≥ s.breakeven_price

/-- Python `Signal.move_to_breakeven`: move stop loss to entry. -/
def Signal.move_to_breakeven (s : Signal) : Signal :=
  { s with stop_loss := s.entry, status := SignalStatus.BREAKEVEN }

/-- Indicator snapshot (`models.IndicatorValues`). -/
structure IndicatorValues where
  rsi : Option ℚ := none
  macd_line : Option ℚ := none
  macd_signal : Option ℚ := none
  macd_histogram : Option ℚ := none
  atr : Option ℚ := none
  deriving DecidableEq, Repr

/-- Python `CandlePattern.value` (the string payload of the Python enum). -/
def CandlePattern.value : CandlePattern → String
  | CandlePattern.HAMMER => "HAMMER"
  | CandlePattern.BULLISH_ENGULFING => "BULLISH_ENGULFING"
  | CandlePattern.SHOOTING_STAR => "SHOOTING_STAR"
  | CandlePattern.BEARISH_ENGULFING => "BEARISH_ENGULFING"

/-! ## Pattern recognizer (`src/core/patterns.py`) -/

/-- Python `patterns.is_hammer`.  The Python keyword parameters `body_ratio`
(default 0.35) and `shadow_ratio` (default 1.8) are called `body_max`
and `shadow_min` here. -/
def is_hammer (bar : Bar) (body_max : ℚ := 35/100) (shadow_min : ℚ := 18/10) : Bool :=
  if bar.total_range = 0 then false
  else
    let body := bar.body_size
    let lower_shadow := bar.lower_shadow
    let upper_shadow := bar.upper_shadow
    let total_range := bar.total_range
    if body / total_range > body_max then false
    else if lower_shadow < total_range * (4/10) then false
    else if body > 0 then
      if lower_shadow / body < shadow_min then false
      else if upper_shadow > body * (12/10) then false
      else true
    else
      -- doji case: lower shadow should be most of the range
      if lower_shadow < total_range * (6/10) then false
      else true

/-- Python `patterns.is_bullish_engulfing`. -/
def is_bullish_engulfing (current previous : Bar) : Bool :=
  if !previous.is_bearish then false
  else if !current.is_bullish then false
  else
    let current_body_low := min current.open_ current.close
    let current_body_high := max current.open_ current.close
    let prev_body_low := min previous.open_ previous.close
    let prev_body_high := max previous.open_ previous.close
    current_body_low < prev_body_low && current_body_high > prev_body_high

/-- Python `patterns.is_shooting_star`. -/
def is_shooting_star (bar : Bar) (body_max : ℚ := 35/100) (shadow_min : ℚ := 18/10) : Bool :=
  if bar.total_range = 0 then false
  else
    let body := bar.body_size
    let lower_shadow := bar.lower_shadow
    let upper_shadow := bar.upper_shadow
    let total_range := bar.total_range
    if body / total_range > body_max then false
    else if upper_shadow < total_range * (4/10) then false
    else if body > 0 then
      if upper_shadow / body < shadow_min then false
      else if lower_shadow > body * (12/10) then false
      else true
    else
      if upper_shadow < total_range * (6/10) then false
      else true

/-- Python `patterns.is_bearish_engulfing`. -/
def is_bearish_engulfing (current previous : Bar) : Bool :=
  if !previous.is_bullish then false
  else if !current.is_bearish then false
  else
    let current_body_low := min current.open_ current.close
    let current_body_high := max current.open_ current.close
    let prev_body_low := min previous.open_ previous.close
    let prev_body_high := max previous.open_ previous.close
    current_body_low < prev_body_low && current_body_high > prev_body_high

/-- Python `patterns.detect_bullish_reversal`: Hammer on the tail bar first,
then Bullish Engulfing on the last two bars. -/
def detect_bullish_reversal (bars : List Bar) : Option CandlePattern :=
  match bars.getLast? with
  | none => none
  | some current =>
    if is_hammer current then some CandlePattern.HAMMER
    else if 2 ≤ bars.length then
      match bars.dropLast.getLast? with
      | some previous =>
        if is_bullish_engulfing current previous then
          some CandlePattern.BULLISH_ENGULFING
        else none
      | none => none
    else none

/-- Python `patterns.detect_bearish_reversal`. -/
def detect_bearish_reversal (bars : List Bar) : Option CandlePattern :=
  match bars.getLast? with
  | none => none
  | some current =>
    if is_shooting_star current then some CandlePattern.SHOOTING_STAR
    else if 2 ≤ bars.length then
      match bars.dropLast.getLast? with
      | some previous =>
        if is_bearish_engulfing current previous then
          some CandlePattern.BEARISH_ENGULFING
        else none
      | none => none
    else none

/-! ## Pivot detector (`src/core/pivot_detector.py`) -/

/-- Mutable state of `PivotDetector`. -/
structure PivotState where
  pivot_lows : List Pivot := []
  pivot_highs : List Pivot := []
  deriving DecidableEq, Repr

/-- Python `PivotDetector.process_bar`: returns the updated detector state and
the newly detected pivot, if any. -/
def process_bar (st : PivotState) (bars : List Bar) (bar_index : ℕ) :
    PivotState × Option Pivot :=
  if bars.length < 2 then (st, none)
  else
    match bars.getLast? with
    | none => (st, none)
    | some current_bar =>
      match detect_bullish_reversal bars with
      | some bullish_pattern =>
        let pivot : Pivot :=
          { type := PivotType.LOW
            price := current_bar.low
            timestamp := current_bar.timestamp
            bar_index := bar_index
            pattern := bullish_pattern }
        ({ st with pivot_lows := st.pivot_lows ++ [pivot] }, some pivot)
      | none =>
        match detect_bearish_reversal bars with
        | some bearish_pattern =>
          let pivot : Pivot :=
            { type := PivotType.HIGH
              price := current_bar.high
              timestamp := current_bar.timestamp
              bar_index := bar_index
              pattern := bearish_pattern }
          ({ st with pivot_highs := st.pivot_highs ++ [pivot] }, some pivot)
        | none => (st, none)

/-- Python `PivotDetector.get_last_pivot_low`. -/
def PivotState.get_last_pivot_low (st : PivotState) : Option Pivot :=
  st.pivot_lows.getLast?

/-- Python `PivotDetector.get_previous_pivot_low`: the second most recent pivot
low, used for the stop-loss calculation. -/
def PivotState.get_previous_pivot_low (st : PivotState) : Option Pivot :=
  if 2 ≤ st.pivot_lows.length then st.pivot_lows.dropLast.getLast? else none

/-- Python `PivotDetector.get_last_pivot_high`. -/
def PivotState.get_last_pivot_high (st : PivotState) : Option Pivot :=
  st.pivot_highs.getLast?

/-! ## Trend analyzer (`src/core/trend_analyzer.py`) -/

structure TrendAnalysisResult where
  is_uptrend : Bool
  higher_lows_count : ℕ
  higher_highs_count : ℕ
  reason : String
  deriving DecidableEq, Repr

/-- Python `TrendAnalyzer.REQUIRED_PAIRS`. -/
def REQUIRED_PAIRS : ℕ := 3

/-- Helper for `_count_higher_pairs`: the Python loop walks the index
`i` from `len - 1` down to `1`, counting while `pivots[i].price >
pivots[i-1].price` and breaking at the first failure, i.e. it scans
adjacent pairs of the reversed price list while each next element is
smaller. -/
def count_higher_aux : List ℚ → ℕ
  | a :: b :: rest => if b < a then count_higher_aux (b :: rest) + 1 else 0
  | _ => 0

/-- Python `TrendAnalyzer._count_higher_pairs`: number of consecutive higher
pivot pairs counted from the end of the list. -/
def count_higher_pairs (pivots : List Pivot) : ℕ :=
  if pivots.length < 2 then 0
  else count_higher_aux ((pivots.map Pivot.price).reverse)

/-- Python `TrendAnalyzer.analyze`. -/
def analyze (pivot_lows pivot_highs : List Pivot) : TrendAnalysisResult :=
  let higher_lows := count_higher_pairs pivot_lows
  let higher_highs := count_higher_pairs pivot_highs
  let is_uptrend : Bool :=
    higher_lows ≥ REQUIRED_PAIRS && higher_highs ≥ REQUIRED_PAIRS
  let hls := toString higher_lows
  let hhs := toString higher_highs
  let req := toString REQUIRED_PAIRS
  let reason :=
    if is_uptrend then
      "Uptrend confirmed: " ++ hls ++ " higher lows + " ++ hhs ++ " higher highs"
    else
      let missing :=
        (if higher_lows < REQUIRED_PAIRS then
          ["higher lows (" ++ hls ++ "/" ++ req ++ ")"] else []) ++
        (if higher_highs < REQUIRED_PAIRS then
          ["higher highs (" ++ hhs ++ "/" ++ req ++ ")"] else [])
      "No uptrend: insufficient " ++ String.intercalate ", " missing
  { is_uptrend := is_uptrend
    higher_lows_count := higher_lows
    higher_highs_count := higher_highs
    reason := reason }

/-! ## Indicators (`src/core/indicators.py`) -/

/-- Python `indicators._mean`: `sum / len`, or `0.0` for an empty list. -/
def listMean (values : List ℚ) : ℚ :=
  if values.isEmpty then 0 else values.sum / values.length

/-- Python `indicators._diff`. -/
def listDiff (values : List ℚ) : List ℚ :=
  (values.zip values.tail).map (fun p => p.2 - p.1)

/-- Python `indicators._where_positive`. -/
def wherePositive (values : List ℚ) : List ℚ :=
  values.map (fun v => if v > 0 then v else 0)

/-- Python `indicators._where_negative_abs`. -/
def whereNegativeAbs (values : List ℚ) : List ℚ :=
  values.map (fun v => if v < 0 then -v else 0)

/-- Floor of a rational, computed directly on the reduced fraction. -/
def ratFloor (q : ℚ) : ℤ := Int.fdiv q.num q.den

/-- Python's `round(x, 2)` (round half to even at two decimal places),
idealized over `ℚ`.  The fractional part of `x = q * 100` is
`rem / x.den` with `rem := x.num - ⌊x⌋ * x.den`, so comparing it with
`1/2` amounts to comparing `2 * rem` with `x.den`. -/
def roundTo2 (q : ℚ) : ℚ :=
  let x := q * 100
  let f : ℤ := ratFloor x
  let rem : ℤ := x.num - f * x.den
  let n : ℤ :=
    if 2 * rem < x.den then f
    else if 2 * rem > x.den then f + 1
    else if f % 2 = 0 then f else f + 1
  Rat.divInt n 100

/-- The Wilder averages `(avg_gain, avg_loss)` computed by
`calculate_rsi`: SMA seed over the first `period` gains/losses, then
Wilder smoothing over the remaining ones (the Python loop
`for i in range(period, len(gains))`). -/
def rsiAvgs (closes : List ℚ) (period : ℕ) : ℚ × ℚ :=
  let deltas := listDiff closes
  let gains := wherePositive deltas
  let losses := whereNegativeAbs deltas
  let seed : ℚ × ℚ := (listMean (gains.take period), listMean (losses.take period))
  (List.range' period (gains.length - period)).foldl
    (fun avgs i =>
      ((avgs.1 * ((period : ℚ) - 1) + gains.getD i 0) / period,
       (avgs.2 * ((period : ℚ) - 1) + losses.getD i 0) / period))
    seed

/-- Python `indicators.calculate_rsi`. -/
def calculate_rsi (closes : List ℚ) (period : ℕ := 14) : Option ℚ :=
  if closes.length < period + 1 then none
  else
    let avgs := rsiAvgs closes period
    if avgs.2 = 0 then some 100
    else
      let rs := avgs.1 / avgs.2
      some (roundTo2 (100 - 100 / (1 + rs)))

/-- Python `indicators.calculate_ema`: SMA seed over the first `period` values,
then `ema_t = price_t * α + ema_{t-1} * (1 - α)` with `α = 2/(period+1)`.
Empty result when fewer than `period` values exist. -/
def calculate_ema (values : List ℚ) (period : ℕ) : List ℚ :=
  if values.length < period then []
  else
    let multiplier : ℚ := 2 / (period + 1)
    (values.drop period).foldl
      (fun ema v => ema ++ [v * multiplier + ema.getLastD 0 * (1 - multiplier)])
      [listMean (values.take period)]

structure MACDResult where
  macd_line : ℚ
  signal_line : ℚ
  histogram : ℚ
  deriving DecidableEq, Repr

/-- Python `indicators.calculate_macd`.  The reported values are divided by
1000 (display convention kept by the source). -/
def calculate_macd (closes : List ℚ) (fast_period : ℕ := 12)
    (slow_period : ℕ := 26) (signal_period : ℕ := 9) : Option MACDResult :=
  let min_periods := slow_period + signal_period
  if closes.length < min_periods then none
  else
    let fast_ema := calculate_ema closes fast_period
    let slow_ema := calculate_ema closes slow_period
    if fast_ema.isEmpty || slow_ema.isEmpty then none
    else
      let offset := slow_period - fast_period
      let macd_line_values :=
        (List.range slow_ema.length).map
          (fun i => fast_ema.getD (i + offset) 0 - slow_ema.getD i 0)
      if macd_line_values.length < signal_period then none
      else
        let signal_ema := calculate_ema macd_line_values signal_period
        if signal_ema.isEmpty then none
        else
          let macd_line := macd_line_values.getLastD 0
          let signal_line := signal_ema.getLastD 0
          let histogram := macd_line - signal_line
          some { macd_line := macd_line / 1000
                 signal_line := signal_line / 1000
                 histogram := histogram / 1000 }

/-- The list of true ranges computed inside `calculate_atr`:
`tr_i = max(high_i - low_i, |high_i - close_{i-1}|, |low_i - close_{i-1}|)`
for consecutive bar pairs. -/
def trueRanges (bars : List Bar) : List ℚ :=
  (bars.zip bars.tail).map
    (fun p =>
      max (p.2.high - p.2.low)
        (max |p.2.high - p.1.close| |p.2.low - p.1.close|))

/-- Python `indicators.calculate_atr`: simple average of the last `period` true
ranges; `none` with fewer than `period + 1` bars. -/
def calculate_atr (bars : List Bar) (period : ℕ := 14) : Option ℚ :=
  if bars.length < period + 1 then none
  else
    let tr := trueRanges bars
    some (listMean (tr.drop (tr.length - period)))

/-- Python `indicators.check_macd_crossover`. -/
def check_macd_crossover (current previous : Option MACDResult) : Bool :=
  match current, previous with
  | some c, some p => p.macd_line ≤ p.signal_line && c.macd_line > c.signal_line
  | _, _ => false

/-- Python `indicators.get_all_indicators`. -/
def get_all_indicators (bars : List Bar) (rsi_period : ℕ := 14)
    (macd_fast : ℕ := 12) (macd_slow : ℕ := 26) (macd_signal : ℕ := 9)
    (atr_period : ℕ := 14) : IndicatorValues :=
  let closes := bars.map Bar.close
  let rsi := calculate_rsi closes rsi_period
  let macd := calculate_macd closes macd_fast macd_slow macd_signal
  let atr := calculate_atr bars atr_period
  { rsi := rsi
    macd_line := macd.map MACDResult.macd_line
    macd_signal := macd.map MACDResult.signal_line
    macd_histogram := macd.map MACDResult.histogram
    atr := atr }

/-! ## Signal engine (`src/core/signal_engine.py`) -/

/-- Constructor parameters of `SignalEngine`. -/
structure EngineConfig where
  zone_width_atr_mult : ℚ := 2/10
  sl_buffer_atr_mult : ℚ := 5/100
  risk_reward : ℚ := 2         -- `risk_reward_ratio` in the source
  default_quantity : ℤ := 1
  rsi_period : ℕ := 14
  macd_fast : ℕ := 12
  macd_slow : ℕ := 26
  macd_signal : ℕ := 9
  atr_period : ℕ := 14
  deriving DecidableEq, Repr

/-- Mutable state of `SignalEngine`. -/
structure EngineState where
  cfg : EngineConfig := {}
  pivots : PivotState := {}
  bars : List Bar := []
  previous_macd : Option MACDResult := none
  deriving DecidableEq, Repr

structure SignalCheckResult where
  should_signal : Bool
  signal : Option Signal := none
  reasons : List String := []
  failed_conditions : List String := []
  deriving DecidableEq, Repr

/-- Python `SignalEngine._get_support_zone`. -/
def get_support_zone (st : EngineState) (atr : ℚ) : Option SupportZone :=
  match st.pivots.get_last_pivot_low with
  | none => none
  | some last_pivot_low =>
    let width := st.cfg.zone_width_atr_mult * atr
    some { pivot := last_pivot_low
           zone_low := last_pivot_low.price - width
           zone_high := last_pivot_low.price + width }

/-- Python `SignalEngine._create_signal`: BUY signal with SL below the previous
pivot low (or the current bar low as fallback) and TP from the
risk/reward ratio. -/
def create_signal (st : EngineState) (bar : Bar) (atr : ℚ)
    (reasons : List String) : Signal :=
  let entry := bar.close
  let sl :=
    match st.pivots.get_previous_pivot_low with
    | some prev_pivot => prev_pivot.price - st.cfg.sl_buffer_atr_mult * atr
    | none => bar.low - st.cfg.sl_buffer_atr_mult * atr
  let risk := entry - sl
  let tp := entry + st.cfg.risk_reward * risk
  let reason_text := String.intercalate "\n" reasons
  mkSignal
    { symbol := bar.symbol
      signal_type := SignalType.BUY
      timestamp := bar.timestamp
      entry := entry
      stop_loss := sl
      take_profit := tp
      quantity := st.cfg.default_quantity
      status := SignalStatus.ACTIVE
      reason := reason_text }

/-- Condition 1 of `check_signal` (uptrend): the pair of reason lines
appended to `reasons` and to `failed`. -/
def cond_uptrend (st : EngineState) : List String × List String :=
  let trend_result := analyze st.pivots.pivot_lows st.pivots.pivot_highs
  if trend_result.is_uptrend then
    (["✓ Uptrend: " ++ trend_result.reason], [])
  else ([], ["No uptrend: " ++ trend_result.reason])

/-- Condition 2 of `check_signal` (price touches support zone). -/
def cond_zone (st : EngineState) (current_bar : Bar) (atr : ℚ) :
    List String × List String :=
  match get_support_zone st atr with
  | none => ([], ["No support zone available"])
  | some support_zone =>
    let zl := toString support_zone.zone_low
    let zh := toString support_zone.zone_high
    if support_zone.contains_price current_bar.low current_bar.high then
      (["✓ Price in support zone [" ++ zl ++ " - " ++ zh ++ "]"], [])
    else ([], ["Price not in support zone [" ++ zl ++ " - " ++ zh ++ "]"])

/-- Condition 3 of `check_signal` (bullish reversal pattern on the tail). -/
def cond_pattern (st : EngineState) : List String × List String :=
  match detect_bullish_reversal st.bars with
  | some p => (["✓ Bullish reversal: " ++ p.value], [])
  | none => ([], ["No bullish reversal pattern"])

/-- Condition 4 of `check_signal` (confirmation: MACD bullish crossover
or RSI > 50).  The Python truthiness test `if indicators.rsi` — false
both for `None` and for `0.0` — is kept in `rsi_str`. -/
def cond_confirmation (st : EngineState) (indicators : IndicatorValues) :
    List String × List String :=
  let closes := st.bars.map Bar.close
  let current_macd := calculate_macd closes st.cfg.macd_fast
    st.cfg.macd_slow st.cfg.macd_signal
  let confirmation_by_macd := check_macd_crossover current_macd st.previous_macd
  let confirmation_by_rsi : Bool :=
    match indicators.rsi with
    | some r => decide (r > 50)
    | none => false
  let confirmation := confirmation_by_macd || confirmation_by_rsi
  let confirmation_reason :=
    if confirmation_by_macd then "MACD bullish crossover"
    else match indicators.rsi with
      | some r => "RSI > 50 (" ++ toString r ++ ")"
      | none => ""
  let rsi_str :=
    match indicators.rsi with
    | some r => if r = 0 then "N/A" else toString r
    | none => "N/A"
  if confirmation then
    (["✓ Confirmation: " ++ confirmation_reason], [])
  else ([], ["No confirmation (MACD no cross, RSI=" ++ rsi_str ++ ")"])

/-- The indicator snapshot `check_signal` computes from the engine's
own bars and configured periods. -/
def engine_indicators (st : EngineState) : IndicatorValues :=
  get_all_indicators st.bars st.cfg.rsi_period st.cfg.macd_fast
    st.cfg.macd_slow st.cfg.macd_signal st.cfg.atr_period

/-- The `reasons` list accumulated by `check_signal` over the four
conditions, in order. -/
def check_reasons (st : EngineState) (current_bar : Bar) (atr : ℚ) : List String :=
  (cond_uptrend st).1 ++ (cond_zone st current_bar atr).1 ++
    (cond_pattern st).1 ++ (cond_confirmation st (engine_indicators st)).1

/-- The `failed` list accumulated by `check_signal` over the four
conditions, in order. -/
def check_failed (st : EngineState) (current_bar : Bar) (atr : ℚ) : List String :=
  (cond_uptrend st).2 ++ (cond_zone st current_bar atr).2 ++
    (cond_pattern st).2 ++ (cond_confirmation st (engine_indicators st)).2

/-- Python `SignalEngine.check_signal`: evaluate the four BUY conditions on the
current state.  Display formatting of numbers inside reason strings is
abstracted to `toString`. -/
def check_signal (st : EngineState) : SignalCheckResult :=
  if st.bars.length < 2 then
    { should_signal := false, failed_conditions := ["Insufficient data"] }
  else
    match st.bars.getLast? with
    | none => { should_signal := false, failed_conditions := ["Insufficient data"] }
    | some current_bar =>
      match (engine_indicators st).atr with
      | none =>
        { should_signal := false
          failed_conditions := ["ATR not available (need more data)"] }
      | some atr =>
        let reasons := check_reasons st current_bar atr
        let failed := check_failed st current_bar atr
        let all_passed : Bool := failed.length = 0 && reasons.length ≥ 4
        if all_passed then
          let signal := create_signal st current_bar atr reasons
          { should_signal := true, signal := some signal, reasons := reasons }
        else
          { should_signal := false, reasons := reasons
            failed_conditions := failed }

/-- Python `SignalEngine.add_bar`: append the bar, run the pivot detector on
the extended history, check for a signal, then refresh `previous_macd`. -/
def add_bar (st : EngineState) (bar : Bar) : EngineState × SignalCheckResult :=
  let bars := st.bars ++ [bar]
  let bar_index := bars.length - 1
  let pivots := (process_bar st.pivots bars bar_index).1
  let st1 : EngineState := { st with bars := bars, pivots := pivots }
  let result := check_signal st1
  let closes := bars.map Bar.close
  let current_macd := calculate_macd closes st.cfg.macd_fast
    st.cfg.macd_slow st.cfg.macd_signal
  ({ st1 with previous_macd := current_macd }, result)

/-! ## Backtest position handling (`src/core/backtest.py`) -/

/-- Completed trade record (`backtest.Trade`). -/
structure Trade where
  signal : Signal
  entry_time : ℤ
  exit_time : ℤ
  entry_price : ℚ
  exit_price : ℚ
  quantity : ℤ
  pnl : ℚ
  pnl_percent : ℚ
  exit_reason : String
  deriving DecidableEq, Repr

/-- The per-symbol slice of `BacktestEngine` state that
`_check_positions` reads and writes: the open position for the bar's
symbol (if any), the running capital and the trades log. -/
structure BTState where
  position : Option Signal := none
  capital : ℚ := 100000000
  trades : List Trade := []
  deriving DecidableEq, Repr

/-- Python `BacktestEngine._check_positions` for one bar.  Exit tests run in
order: stop loss, take profit, move-to-breakeven.  The final Python
guard is `if exit_price:`, which is false both for `None` and for an
exit price equal to `0.0`; that truthiness test is modelled exactly. -/
def check_positions (st : BTState) (bar : Bar) : BTState :=
  match st.position with
  | none => st
  | some signal =>
    let exit_data : Option ℚ × String × Signal :=
      if bar.low ≤ signal.stop_loss then
        (some signal.stop_loss, "SL", signal)
      else if bar.high ≥ signal.take_profit then
        (some signal.take_profit, "TP", signal)
      else if signal.should_move_to_breakeven bar.high then
        (none, "", signal.move_to_breakeven)
      else (none, "", signal)
    match exit_data.1 with
    | some p =>
      if p ≠ 0 then
        let pnl := (p - signal.entry) * Rat.ofInt signal.quantity
        let pnl_percent := (p - signal.entry) / signal.entry * 100
        let trade : Trade :=
          { signal := signal
            entry_time := signal.timestamp
            exit_time := bar.timestamp
            entry_price := signal.entry
            exit_price := p
            quantity := signal.quantity
            pnl := pnl
            pnl_percent := pnl_percent
            exit_reason := exit_data.2.1 }
        { position := none, capital := st.capital + pnl
          trades := st.trades ++ [trade] }
      else { st with position := some exit_data.2.2 }
    | none => { st with position := some exit_data.2.2 }

/-- Whether the move-to-breakeven branch of `_check_positions` fires on
this bar (no SL/TP exit and `should_move_to_breakeven` holds). -/
def breakeven_fires (st : BTState) (bar : Bar) : Bool :=
  match st.position with
  | none => false
  | some signal =>
    !(bar.low ≤ signal.stop_loss) && !(bar.high ≥ signal.take_profit) &&
      signal.should_move_to_breakeven bar.high

/-- Number of bars of a run on which the move-to-breakeven transition
fires. -/
def breakeven_count (st : BTState) : List Bar → ℕ
  | [] => 0
  | b :: rest =>
    (if breakeven_fires st b then 1 else 0) + breakeven_count (check_positions st b) rest

/-! ## Full-scan pivot run (`pivot_detector.detect_pivots_from_bars`) -/

/-- The loop of `detect_pivots_from_bars`: for each index `i` from 1 to
`len(bars) - 1`, run `process_bar` on the window `bars[:i+1]`; collect
the emitted pivots in detection order. -/
def detect_pivots_aux (bars : List Bar) (st : PivotState) (i : ℕ) : List Pivot :=
  if i < bars.length then
    let step := process_bar st (bars.take (i + 1)) i
    step.2.toList ++ detect_pivots_aux bars step.1 (i + 1)
  else []
termination_by bars.length - i

/-- Pivots emitted by `detect_pivots_from_bars`, in detection order. -/
def detect_pivots_emitted (bars : List Bar) : List Pivot :=
  detect_pivots_aux bars {} 1

/-! ## Spec-side definitions

These two definitions follow the wording of the specification (not the
source); they are used to compare the code's behaviour against the
spec's phrasing. -/

/-- Whether a list of prices is strictly monotonically increasing. -/
def isStrictIncr : List ℚ → Bool
  | a :: b :: rest => decide (a < b) && isStrictIncr (b :: rest)
  | _ => true

/-- Modelled from the spec: "the length of the longest suffix of
pivot-lows that is strictly monotonically increasing in price" ---
the maximum length over all strictly increasing suffixes. -/
def specSuffixLen (xs : List ℚ) : ℕ :=
  ((xs.tails.filter isStrictIncr).map List.length).foldr max 0

/-- Whether the string `needle` occurs inside `hay` ("a reason whose
text mentions ..."). -/
def strMentions (hay needle : String) : Bool :=
  hay.toList.tails.any (fun t => needle.toList.isPrefixOf t)

/-! ## Concrete scenario data -/

/-- Abbreviation for building bars of the concrete scenarios. -/
def mkBar (ts : ℤ) (o h l c : ℚ) : Bar :=
  { symbol := "AAA", timeframe := "1H", timestamp := ts
    open_ := o, high := h, low := l, close := c }

/-- A 16-bar scenario that fires a BUY signal: four ascending pivot
lows made by Hammer bars (lows 101, 103, 105, 107, the last one on the
final bar), four ascending pivot highs made by Shooting-Star bars
(highs 122, 124, 126, 128), neutral full-body bars in between, rising
closes so that RSI(14) > 50.  All bars are bullish, so no engulfing
pattern ever fires. -/
def scenBars : List Bar :=
  [ mkBar 0 100 104 100 104
  , mkBar 1 110 111 101 111
  , mkBar 2 112 122 112 113
  , mkBar 3 112 113 103 113
  , mkBar 4 114 124 114 115
  , mkBar 5 114 115 105 115
  , mkBar 6 116 126 116 117
  , mkBar 7 118 128 118 119
  , mkBar 8 116 120 116 120
  , mkBar 9 118 122 118 122
  , mkBar 10 120 124 120 124
  , mkBar 11 122 126 122 126
  , mkBar 12 124 128 124 128
  , mkBar 13 126 130 126 130
  , mkBar 14 128 132 128 132
  , mkBar 15 116 117 107 117 ]

/-- Engine state after feeding the first 15 scenario bars. -/
def scenState15 : EngineState :=
  (scenBars.take 15).foldl (fun st b => (add_bar st b).1) {}

/-- The final scenario bar (a Hammer with low 107). -/
def scenFinalBar : Bar := mkBar 15 116 117 107 117

/-- Engine state after feeding all 16 scenario bars. -/
def scenStateFull : EngineState := (add_bar scenState15 scenFinalBar).1

/-- A pivot low, as loaded into the detector by
`PivotDetector.load_pivots`. -/
def loadedLow (ts : ℤ) (price : ℚ) (idx : ℕ) : Pivot :=
  { type := PivotType.LOW, price := price, timestamp := ts
    bar_index := idx, pattern := CandlePattern.HAMMER }

/-- A pivot high, as loaded into the detector by
`PivotDetector.load_pivots`. -/
def loadedHigh (ts : ℤ) (price : ℚ) (idx : ℕ) : Pivot :=
  { type := PivotType.HIGH, price := price, timestamp := ts
    bar_index := idx, pattern := CandlePattern.SHOOTING_STAR }

/-- Bars for the stop-loss-above-entry state: fourteen rising neutral
bars (closes 100 … 126), one bearish bar, and a final bullish-engulfing
bar whose upper wick reaches 1000.  All closes rise, so RSI = 100. -/
def slBars : List Bar :=
  [ mkBar 0 96 100 96 100
  , mkBar 1 98 102 98 102
  , mkBar 2 100 104 100 104
  , mkBar 3 102 106 102 106
  , mkBar 4 104 108 104 108
  , mkBar 5 106 110 106 110
  , mkBar 6 108 112 108 112
  , mkBar 7 110 114 110 114
  , mkBar 8 112 116 112 116
  , mkBar 9 114 118 114 118
  , mkBar 10 116 120 116 120
  , mkBar 11 118 122 118 122
  , mkBar 12 120 124 120 124
  , mkBar 13 122 126 122 126
  , mkBar 14 130 (261/2) (255/2) 128
  , mkBar 15 127 1000 (253/2) 131 ]

/-- An engine state whose pivot lists were loaded independently of the
bar history (`PivotDetector.load_pivots`): four ascending pivot lows at
500–800 while the bars trade near 100–131.  All four BUY conditions
pass on this state, and the computed stop loss (below pivot 700) is far
above the entry (131). -/
def slState : EngineState :=
  { cfg := {}
    pivots :=
      { pivot_lows :=
          [loadedLow 1 500 1, loadedLow 2 600 2, loadedLow 3 700 3, loadedLow 4 800 4]
        pivot_highs :=
          [loadedHigh 1 505 1, loadedHigh 2 605 2, loadedHigh 3 705 3, loadedHigh 4 805 4] }
    bars := slBars
    previous_macd := none }

/-- A default-configuration engine state with only three bars: RSI,
MACD and ATR are all unavailable. -/
def shortState : EngineState :=
  { cfg := {}
    bars := [mkBar 0 100 104 100 104, mkBar 1 102 106 102 106, mkBar 2 104 108 104 108] }

/-- An engine state with `atr_period = 2` and four bars: ATR is
available while the RSI (period 14) is not, so `check_signal` reaches
the Confirmation condition with an absent RSI. -/
def shortRsiState : EngineState :=
  { cfg := { atr_period := 2 }
    bars := [mkBar 0 100 104 100 104, mkBar 1 102 106 102 106,
             mkBar 2 104 108 104 108, mkBar 3 106 110 106 110] }

/-- Stop-loss-at-zero position for the backtester truthiness analysis:
a BUY position whose stop loss sits exactly at price 0. -/
def zeroSlSignal : Signal :=
  { symbol := "AAA", signal_type := SignalType.BUY, timestamp := 0
    entry := 1, stop_loss := 0, take_profit := 3, quantity := 5
    status := SignalStatus.ACTIVE, reason := "", original_sl := 0 }

/-- A bar that gaps down to price 0 (low = 0 ≤ stop loss). -/
def zeroLowBar : Bar := mkBar 10 (1/10) (1/2) 0 (1/5)

/-- Backtester state holding the zero-stop position. -/
def zeroSlBTState : BTState :=
  { position := some zeroSlSignal, capital := 1000, trades := [] }

/-- The single-bar Hammer of scenario S3:
`(open=100, high=101, low=95, close=100.5)`. -/
def hammerBar : Bar := mkBar 0 100 101 95 (201/2)

/-- A signal for which the move-to-breakeven transition fires at price 12. -/
def breakevenSignal : Signal :=
  { symbol := "AAA", signal_type := SignalType.BUY, timestamp := 0
    entry := 10, stop_loss := 8, take_profit := 14, quantity := 1
    status := SignalStatus.ACTIVE, reason := "", original_sl := 8 }

/-! ## Lemmas about the move-to-breakeven transition -/

theorem should_move_true_elim {s : Signal} {p : ℚ}
    (h : s.should_move_to_breakeven p = true) :
    s.status = SignalStatus.ACTIVE ∧ s.stop_loss < s.entry ∧
      s.entry + (s.entry - s.stop_loss) ≤ p := by
  unfold Signal.should_move_to_breakeven at h
  by_cases h1 : s.status ≠ SignalStatus.ACTIVE
  · rw [if_pos h1] at h; cases h
  · rw [if_neg h1] at h
    by_cases h2 : s.stop_loss ≥ s.entry
    · rw [if_pos h2] at h; cases h
    · rw [if_neg h2] at h
      have hlt : s.stop_loss < s.entry := lt_of_not_ge h2
      have hp : p ≥ s.breakeven_price := of_decide_eq_true h
      refine ⟨not_not.mp h1, hlt, ?_⟩
      unfold Signal.breakeven_price Signal.risk at hp
      rwa [abs_of_pos (sub_pos.mpr hlt)] at hp

theorem should_move_false_of_inactive {s : Signal} (h : s.status ≠ SignalStatus.ACTIVE)
    (q : ℚ) : s.should_move_to_breakeven q = false := by
  unfold Signal.should_move_to_breakeven
  simp [h]

theorem check_positions_of_none {st : BTState} (b : Bar) (h : st.position = none) :
    check_positions st b = st := by
  unfold check_positions; rw [h]

theorem check_positions_breakeven {s : Signal} {b : Bar} (c : ℚ) (t : List Trade)
    (h1 : ¬(b.low ≤ s.stop_loss)) (h2 : ¬(b.high ≥ s.take_profit))
    (h3 : s.should_move_to_breakeven b.high = true) :
    check_positions { position := some s, capital := c, trades := t } b =
      { position := some s.move_to_breakeven, capital := c, trades := t } := by
  unfold check_positions
  simp only [if_neg h1, if_neg h2, if_pos h3]

/-- After `_check_positions`, the position is either closed, the same
signal, or the same signal moved to breakeven. -/
theorem check_positions_cases (s : Signal) (b : Bar) (c : ℚ) (t : List Trade) :
    (check_positions { position := some s, capital := c, trades := t } b).position = none ∨
    check_positions { position := some s, capital := c, trades := t } b =
      { position := some s, capital := c, trades := t } ∨
    check_positions { position := some s, capital := c, trades := t } b =
      { position := some s.move_to_breakeven, capital := c, trades := t } := by
  unfold check_positions
  by_cases h1 : b.low ≤ s.stop_loss
  · simp only [if_pos h1]
    by_cases h0 : s.stop_loss ≠ 0
    · simp only [if_pos h0]; simp
    · simp only [if_neg h0]; simp
  · simp only [if_neg h1]
    by_cases h2 : b.high ≥ s.take_profit
    · simp only [if_pos h2]
      by_cases h0 : s.take_profit ≠ 0
      · simp only [if_pos h0]; simp
      · simp only [if_neg h0]; simp
    · simp only [if_neg h2]
      by_cases h3 : s.should_move_to_breakeven b.high
      · simp only [if_pos h3]; simp
      · simp only [if_neg h3]; simp

theorem breakeven_count_of_none (bars : List Bar) :
    ∀ st : BTState, st.position = none → breakeven_count st bars = 0 := by
  induction bars with
  | nil => intro st _; rfl
  | cons b rest ih =>
    intro st h
    have hfire : breakeven_fires st b = false := by
      unfold breakeven_fires; rw [h]
    unfold breakeven_count
    rw [hfire, check_positions_of_none b h, ih st h]
    simp

theorem breakeven_count_of_inactive (bars : List Bar) :
    ∀ (s : Signal) (c : ℚ) (t : List Trade), s.status ≠ SignalStatus.ACTIVE →
      breakeven_count { position := some s, capital := c, trades := t } bars = 0 := by
  induction bars with
  | nil => intro s c t _; rfl
  | cons b rest ih =>
    intro s c t hs
    have hshould := should_move_false_of_inactive hs b.high
    have hfire : breakeven_fires { position := some s, capital := c, trades := t } b = false := by
      unfold breakeven_fires
      simp only [hshould, Bool.and_false]
    unfold breakeven_count
    rw [hfire]
    simp only [Bool.false_eq_true, if_false, Nat.zero_add]
    rcases check_positions_cases s b c t with h | h | h
    · exact breakeven_count_of_none rest _ h
    · rw [h]; exact ih s c t hs
    · rw [h]; exact ih s.move_to_breakeven c t (by unfold Signal.move_to_breakeven; simp)

theorem breakeven_at_most_once (bars : List Bar) :
    ∀ st : BTState, breakeven_count st bars ≤ 1 := by
  induction bars with
  | nil => intro st; exact Nat.zero_le 1
  | cons b rest ih =>
    rintro ⟨pos, cap, tr⟩
    cases pos with
    | none =>
      rw [breakeven_count_of_none (b :: rest) _ rfl]
      exact Nat.zero_le 1
    | some s =>
      unfold breakeven_count
      by_cases hfire :
          breakeven_fires { position := some s, capital := cap, trades := tr } b = true
      · obtain ⟨hsl, htp, hshould⟩ :
            ¬(b.low ≤ s.stop_loss) ∧ ¬(b.high ≥ s.take_profit) ∧
              s.should_move_to_breakeven b.high = true := by
          unfold breakeven_fires at hfire
          simp only [Bool.and_eq_true, Bool.not_eq_true',
            decide_eq_false_iff_not] at hfire
          exact ⟨hfire.1.1, hfire.1.2, hfire.2⟩
        rw [hfire, check_positions_breakeven cap tr hsl htp hshould,
          breakeven_count_of_inactive rest _ _ _ (by unfold Signal.move_to_breakeven; simp)]
        simp
      · rw [Bool.not_eq_true] at hfire
        rw [hfire]
        simpa using ih _

/-! ## Lemmas about the higher-pairs count and increasing suffixes -/

theorem foldr_max_le {B : ℕ} : ∀ {l : List ℕ}, (∀ x ∈ l, x ≤ B) → l.foldr max 0 ≤ B := by
  intro l
  induction l with
  | nil => intro _; exact Nat.zero_le B
  | cons x rest ih =>
    intro h
    exact max_le (h x (List.mem_cons_self x rest))
      (ih fun y hy => h y (List.mem_cons_of_mem x hy))

theorem le_foldr_max {x : ℕ} : ∀ {l : List ℕ}, x ∈ l → x ≤ l.foldr max 0 := by
  intro l
  induction l with
  | nil => intro h; cases h
  | cons y rest ih =>
    intro h
    rcases List.mem_cons.mp h with h | h
    · subst h; exact le_max_left _ _
    · exact le_trans (ih h) (le_max_right _ _)

theorem isStrictIncr_iff : ∀ xs : List ℚ, isStrictIncr xs = true ↔ xs.Chain' (· < ·) := by
  intro xs
  match xs with
  | [] => simp [isStrictIncr]
  | [a] => simp [isStrictIncr]
  | a :: b :: rest =>
    rw [isStrictIncr, Bool.and_eq_true, decide_eq_true_eq, isStrictIncr_iff (b :: rest),
      List.chain'_cons]

theorem count_higher_aux_succ_le_length :
    ∀ ys : List ℚ, ys ≠ [] → count_higher_aux ys + 1 ≤ ys.length := by
  intro ys
  induction ys with
  | nil => intro h; exact absurd rfl h
  | cons a rest ih =>
    intro _
    cases rest with
    | nil => simp [count_higher_aux]
    | cons b rest' =>
      unfold count_higher_aux
      by_cases h : b < a
      · rw [if_pos h]
        have hr := ih (by simp)
        simpa [List.length_cons] using Nat.succ_le_succ hr
      · rw [if_neg h]
        simp [List.length_cons]

theorem count_higher_aux_take_chain :
    ∀ ys : List ℚ, (ys.take (count_higher_aux ys + 1)).Chain' (fun x y => y < x) := by
  intro ys
  induction ys with
  | nil => simp
  | cons a rest ih =>
    cases rest with
    | nil => simp [count_higher_aux]
    | cons b rest' =>
      unfold count_higher_aux
      by_cases h : b < a
      · rw [if_pos h, List.take_succ_cons]
        refine List.chain'_cons'.mpr ⟨?_, ih⟩
        intro y hy
        have hhead : ((b :: rest').take (count_higher_aux (b :: rest') + 1)).head? = some b := by
          rw [List.take_succ_cons]
          rfl
        rw [hhead] at hy
        cases hy
        exact h
      · rw [if_neg h]
        simp

theorem chain_take_le_count_higher_aux :
    ∀ (ys : List ℚ) (n : ℕ), n ≤ ys.length →
      (ys.take n).Chain' (fun x y => y < x) → n ≤ count_higher_aux ys + 1 := by
  intro ys
  induction ys with
  | nil =>
    intro n hn _
    have hn0 : n = 0 := Nat.le_zero.mp (by simpa using hn)
    simp [hn0]
  | cons a rest ih =>
    intro n hn hchain
    match n, hn, hchain with
    | 0, _, _ => exact Nat.zero_le _
    | 1, _, _ => exact Nat.succ_le_succ (Nat.zero_le _)
    | (m + 2), hn, hchain =>
      cases rest with
      | nil => exact absurd hn (by simp)
      | cons b rest' =>
        rw [List.take_succ_cons, List.take_succ_cons] at hchain
        have hba : b < a := (List.chain'_cons.mp hchain).1
        have hrest : ((b :: rest').take (m + 1)).Chain' (fun x y => y < x) := by
          rw [List.take_succ_cons]
          exact (List.chain'_cons.mp hchain).2
        have hlen : m + 1 ≤ (b :: rest').length := Nat.le_of_succ_le_succ hn
        have hm := ih (m + 1) hlen hrest
        unfold count_higher_aux
        rw [if_pos hba]
        exact Nat.succ_le_succ hm

/-- The code's backwards pair count is exactly one less than the length
of the longest strictly increasing suffix (zero less for the empty
list). -/
theorem specSuffixLen_eq (xs : List ℚ) :
    specSuffixLen xs =
      count_higher_aux xs.reverse + (if xs.isEmpty then 0 else 1) := by
  match hxs : xs with
  | [] => rfl
  | x :: xs' =>
    simp only [List.isEmpty_cons, if_neg Bool.false_ne_true]
    set ys := (x :: xs').reverse with hys
    have hysne : ys ≠ [] := by simp [hys]
    set a := count_higher_aux ys with ha
    apply le_antisymm
    · -- every strictly increasing suffix is at most a + 1 long
      apply foldr_max_le
      intro v hv
      rcases List.mem_map.mp hv with ⟨t, ht, rfl⟩
      rcases List.mem_filter.mp ht with ⟨htails, hincr⟩
      have hsuff : t <:+ x :: xs' := (List.mem_tails t (x :: xs')).mp htails
      have hchain : t.Chain' (· < ·) := (isStrictIncr_iff t).mp hincr
      have hpre : t.reverse <+: ys := by
        rw [hys]
        exact List.reverse_prefix.mpr hsuff
      have hte : t.reverse = ys.take t.length := by
        have := List.prefix_iff_eq_take.mp hpre
        simpa [List.length_reverse] using this
      have hchain' : (ys.take t.length).Chain' (fun p q => q < p) := by
        rw [← hte]
        exact List.chain'_reverse.mpr hchain
      have hlen : t.length ≤ ys.length := by
        rw [hys, List.length_reverse]
        exact hsuff.length_le
      exact chain_take_le_count_higher_aux ys t.length hlen hchain'
    · -- the suffix of length a + 1 is strictly increasing
      have hlen : a + 1 ≤ ys.length := count_higher_aux_succ_le_length ys hysne
      set w := ys.take (a + 1) with hw
      have hwlen : w.length = a + 1 := by
        rw [hw, List.length_take]
        exact min_eq_left hlen
      have hwchain : w.Chain' (fun p q => q < p) := count_higher_aux_take_chain ys
      have hsuffix : w.reverse <:+ x :: xs' := by
        apply List.reverse_prefix.mp
        rw [List.reverse_reverse, ← hys]
        exact List.take_prefix _ _
      have hincr : isStrictIncr w.reverse = true := by
        rw [isStrictIncr_iff]
        exact List.chain'_reverse.mpr hwchain
      apply le_foldr_max
      rw [List.mem_map]
      refine ⟨w.reverse, List.mem_filter.mpr ⟨(List.mem_tails _ _).mpr hsuffix, hincr⟩, ?_⟩
      rw [List.length_reverse]
      exact hwlen

theorem count_higher_pairs_eq_aux (ps : List Pivot) :
    count_higher_pairs ps = count_higher_aux ((ps.map Pivot.price).reverse) := by
  unfold count_higher_pairs
  by_cases h : ps.length < 2
  · rw [if_pos h]
    match ps, h with
    | [], _ => rfl
    | [p], _ => rfl
  · rw [if_neg h]

/-! ## Lemmas about index folds (the Python loops in `calculate_rsi`) -/

theorem range'_foldl_getD {α : Type} (f : α → ℚ → α) (l : List ℚ) :
    ∀ (n k : ℕ) (s : α), l.length - k = n →
      (List.range' k (l.length - k)).foldl (fun a i => f a (l.getD i 0)) s =
        (l.drop k).foldl f s := by
  intro n
  induction n with
  | zero =>
    intro k s h
    rw [h, List.range'_zero, List.drop_eq_nil_of_le (Nat.le_of_sub_eq_zero h)]
    rfl
  | succ m ih =>
    intro k s h
    have hk : k < l.length := by omega
    rw [h, List.range'_succ, List.foldl_cons, List.drop_eq_getElem_cons hk,
      List.foldl_cons]
    have hgetD : l.getD k 0 = l[k] := by
      rw [List.getD_eq_getElem?_getD, List.getElem?_eq_getElem hk]
      rfl
    rw [hgetD]
    have := ih (k + 1) (f s l[k]) (by omega)
    rw [show l.length - (k + 1) = m by omega] at this
    rw [show l.length - k = m + 1 from h] at *
    exact this

theorem foldl_pair_fst (f g : ℚ → ℚ → ℚ) (G L : List ℚ) :
    ∀ (idx : List ℕ) (s : ℚ × ℚ),
      (idx.foldl (fun (a : ℚ × ℚ) i => (f a.1 (G.getD i 0), g a.2 (L.getD i 0))) s).1 =
        idx.foldl (fun a i => f a (G.getD i 0)) s.1 := by
  intro idx
  induction idx with
  | nil => intro s; rfl
  | cons i rest ih => intro s; exact ih _

theorem foldl_pair_snd (f g : ℚ → ℚ → ℚ) (G L : List ℚ) :
    ∀ (idx : List ℕ) (s : ℚ × ℚ),
      (idx.foldl (fun (a : ℚ × ℚ) i => (f a.1 (G.getD i 0), g a.2 (L.getD i 0))) s).2 =
        idx.foldl (fun a i => g a (L.getD i 0)) s.2 := by
  intro idx
  induction idx with
  | nil => intro s; rfl
  | cons i rest ih => intro s; exact ih _

theorem wherePositive_length (values : List ℚ) :
    (wherePositive values).length = values.length := by
  unfold wherePositive; rw [List.length_map]

theorem whereNegativeAbs_length (values : List ℚ) :
    (whereNegativeAbs values).length = values.length := by
  unfold whereNegativeAbs; rw [List.length_map]

/-- The Wilder average of gains computed by the Python index loop
equals the fold of the smoothing step over the gains after the seed
window. -/
theorem rsiAvgs_fst (closes : List ℚ) (period : ℕ) :
    (rsiAvgs closes period).1 =
      ((wherePositive (listDiff closes)).drop period).foldl
        (fun avg x => (avg * ((period : ℚ) - 1) + x) / period)
        (listMean ((wherePositive (listDiff closes)).take period)) := by
  have h1 := foldl_pair_fst
    (fun avg x => (avg * ((period : ℚ) - 1) + x) / period)
    (fun avg x => (avg * ((period : ℚ) - 1) + x) / period)
    (wherePositive (listDiff closes)) (whereNegativeAbs (listDiff closes))
    (List.range' period ((wherePositive (listDiff closes)).length - period))
    (listMean ((wherePositive (listDiff closes)).take period),
     listMean ((whereNegativeAbs (listDiff closes)).take period))
  have h2 := range'_foldl_getD
    (fun avg x => (avg * ((period : ℚ) - 1) + x) / period)
    (wherePositive (listDiff closes))
    ((wherePositive (listDiff closes)).length - period) period
    (listMean ((wherePositive (listDiff closes)).take period)) rfl
  exact h1.trans h2

/-- The Wilder average of losses, similarly. -/
theorem rsiAvgs_snd (closes : List ℚ) (period : ℕ) :
    (rsiAvgs closes period).2 =
      ((whereNegativeAbs (listDiff closes)).drop period).foldl
        (fun avg x => (avg * ((period : ℚ) - 1) + x) / period)
        (listMean ((whereNegativeAbs (listDiff closes)).take period)) := by
  have h1 := foldl_pair_snd
    (fun avg x => (avg * ((period : ℚ) - 1) + x) / period)
    (fun avg x => (avg * ((period : ℚ) - 1) + x) / period)
    (wherePositive (listDiff closes)) (whereNegativeAbs (listDiff closes))
    (List.range' period ((wherePositive (listDiff closes)).length - period))
    (listMean ((wherePositive (listDiff closes)).take period),
     listMean ((whereNegativeAbs (listDiff closes)).take period))
  have hlen : (wherePositive (listDiff closes)).length =
      (whereNegativeAbs (listDiff closes)).length := by
    rw [wherePositive_length, whereNegativeAbs_length]
  have h2 := range'_foldl_getD
    (fun avg x => (avg * ((period : ℚ) - 1) + x) / period)
    (whereNegativeAbs (listDiff closes))
    ((whereNegativeAbs (listDiff closes)).length - period) period
    (listMean ((whereNegativeAbs (listDiff closes)).take period)) rfl
  refine h1.trans ?_
  rw [hlen]
  exact h2

/-! ## Lemmas about `check_signal` -/

theorem getLast?_some_of_two_le {l : List Bar} (h : 2 ≤ l.length) :
    ∃ b, l.getLast? = some b := by
  have hne : l ≠ [] := by
    intro hnil
    rw [hnil] at h
    exact absurd h (by simp)
  have := List.getLast?_isSome.mpr hne
  exact Option.isSome_iff_exists.mp this

theorem calculate_macd_of_short {closes : List ℚ} {fast slow signal : ℕ}
    (h : closes.length < slow + signal) :
    calculate_macd closes fast slow signal = none := by
  unfold calculate_macd
  rw [if_pos h]

theorem calculate_rsi_of_short {closes : List ℚ} {period : ℕ}
    (h : closes.length < period + 1) :
    calculate_rsi closes period = none := by
  unfold calculate_rsi
  rw [if_pos h]

/-- Unfolding of `check_signal` past its three early-return guards. -/
theorem check_signal_eq (st : EngineState) (current_bar : Bar) (atr : ℚ)
    (hlen : ¬st.bars.length < 2) (hcur : st.bars.getLast? = some current_bar)
    (hatr : calculate_atr st.bars st.cfg.atr_period = some atr) :
    check_signal st =
      if (decide ((check_failed st current_bar atr).length = 0) &&
          decide ((check_reasons st current_bar atr).length ≥ 4)) = true then
        { should_signal := true
          signal := some (create_signal st current_bar atr (check_reasons st current_bar atr))
          reasons := check_reasons st current_bar atr
          failed_conditions := [] }
      else
        { should_signal := false, signal := none
          reasons := check_reasons st current_bar atr
          failed_conditions := check_failed st current_bar atr } := by
  unfold check_signal
  rw [if_neg hlen, hcur]
  dsimp only
  rw [show (engine_indicators st).atr = calculate_atr st.bars st.cfg.atr_period from rfl,
    hatr]

/-- Unfolding of `check_signal` when ATR is unavailable. -/
theorem check_signal_eq_noatr (st : EngineState)
    (hlen : ¬st.bars.length < 2)
    (hatr : calculate_atr st.bars st.cfg.atr_period = none) :
    check_signal st =
      { should_signal := false, signal := none, reasons := []
        failed_conditions := ["ATR not available (need more data)"] } := by
  unfold check_signal
  rw [if_neg hlen]
  obtain ⟨current_bar, hcur⟩ := getLast?_some_of_two_le (Nat.not_lt.mp hlen)
  rw [hcur]
  dsimp only
  rw [show (engine_indicators st).atr = calculate_atr st.bars st.cfg.atr_period from rfl,
    hatr]

/-- When `check_signal` fires, the bar history has at least two bars,
ATR is available, the first three conditions passed, and the emitted
signal is exactly `create_signal` applied to the tail bar, the ATR and
the collected reasons. -/
theorem check_signal_fired {st : EngineState}
    (hs : (check_signal st).should_signal = true) :
    ∃ (current_bar : Bar) (atr : ℚ),
      st.bars.getLast? = some current_bar ∧
      2 ≤ st.bars.length ∧
      calculate_atr st.bars st.cfg.atr_period = some atr ∧
      (cond_uptrend st).2 = [] ∧
      (cond_zone st current_bar atr).2 = [] ∧
      (cond_pattern st).2 = [] ∧
      (check_signal st).signal =
        some (create_signal st current_bar atr (check_reasons st current_bar atr)) := by
  by_cases hlen : st.bars.length < 2
  · rw [show check_signal st =
        { should_signal := false, signal := none, reasons := []
          failed_conditions := ["Insufficient data"] } by
        unfold check_signal; rw [if_pos hlen]] at hs
    exact absurd hs (by simp)
  obtain ⟨current_bar, hcur⟩ := getLast?_some_of_two_le (Nat.not_lt.mp hlen)
  cases hatr : calculate_atr st.bars st.cfg.atr_period with
  | none =>
    rw [check_signal_eq_noatr st hlen hatr] at hs
    exact absurd hs (by simp)
  | some atr =>
    have heq := check_signal_eq st current_bar atr hlen hcur hatr
    by_cases hall :
        (decide ((check_failed st current_bar atr).length = 0) &&
          decide ((check_reasons st current_bar atr).length ≥ 4)) = true
    · have hnil : check_failed st current_bar atr = [] := by
        have hsplit := (Bool.and_eq_true _ _).mp hall
        exact List.length_eq_zero.mp (of_decide_eq_true hsplit.1)
      unfold check_failed at hnil
      rw [List.append_eq_nil, List.append_eq_nil, List.append_eq_nil] at hnil
      refine ⟨current_bar, atr, hcur, Nat.not_lt.mp hlen, rfl,
        hnil.1.1.1, hnil.1.1.2, hnil.1.2, ?_⟩
      rw [heq, if_pos hall]
    · rw [heq, if_neg hall] at hs
      exact absurd hs (by simp)

theorem mkSignal_entry (s : Signal) : (mkSignal s).entry = s.entry := by
  unfold mkSignal; split <;> rfl

theorem mkSignal_stop_loss (s : Signal) : (mkSignal s).stop_loss = s.stop_loss := by
  unfold mkSignal; split <;> rfl

theorem mkSignal_take_profit (s : Signal) : (mkSignal s).take_profit = s.take_profit := by
  unfold mkSignal; split <;> rfl

theorem mkSignal_quantity (s : Signal) : (mkSignal s).quantity = s.quantity := by
  unfold mkSignal; split <;> rfl

theorem mkSignal_status (s : Signal) : (mkSignal s).status = s.status := by
  unfold mkSignal; split <;> rfl

/-- The components of a signal produced by `create_signal`. -/
theorem create_signal_fields (st : EngineState) (bar : Bar) (atr : ℚ)
    (reasons : List String) :
    (create_signal st bar atr reasons).entry = bar.close ∧
    (create_signal st bar atr reasons).stop_loss =
      (match st.pivots.get_previous_pivot_low with
        | some p => p.price - st.cfg.sl_buffer_atr_mult * atr
        | none => bar.low - st.cfg.sl_buffer_atr_mult * atr) ∧
    (create_signal st bar atr reasons).take_profit =
      bar.close + st.cfg.risk_reward *
        (bar.close - (match st.pivots.get_previous_pivot_low with
          | some p => p.price - st.cfg.sl_buffer_atr_mult * atr
          | none => bar.low - st.cfg.sl_buffer_atr_mult * atr)) ∧
    (create_signal st bar atr reasons).quantity = st.cfg.default_quantity ∧
    (create_signal st bar atr reasons).status = SignalStatus.ACTIVE := by
  refine ⟨?_, ?_, ?_, ?_, ?_⟩
  · unfold create_signal; rw [mkSignal_entry]
  · unfold create_signal; rw [mkSignal_stop_loss]
  · unfold create_signal; rw [mkSignal_take_profit]
  · unfold create_signal; rw [mkSignal_quantity]
  · unfold create_signal; rw [mkSignal_status]

/-- A passed condition 3 means a bullish reversal pattern was detected. -/
theorem cond_pattern_nil {st : EngineState} (h : (cond_pattern st).2 = []) :
    ∃ p, detect_bullish_reversal st.bars = some p := by
  unfold cond_pattern at h
  cases hp : detect_bullish_reversal st.bars with
  | some p => exact ⟨p, rfl⟩
  | none =>
    rw [hp] at h
    exact absurd h (by simp)

/-- A passed condition 1 means the trend analyzer reported an uptrend. -/
theorem cond_uptrend_nil {st : EngineState} (h : (cond_uptrend st).2 = []) :
    (analyze st.pivots.pivot_lows st.pivots.pivot_highs).is_uptrend = true := by
  unfold cond_uptrend at h
  by_cases hu : (analyze st.pivots.pivot_lows st.pivots.pivot_highs).is_uptrend
  · exact hu
  · rw [if_neg (by simpa using hu)] at h
    exact absurd h (by simp)

/-- An uptrend means at least 3 higher-pair counts on both sides. -/
theorem analyze_uptrend_elim {lows highs : List Pivot}
    (h : (analyze lows highs).is_uptrend = true) :
    REQUIRED_PAIRS ≤ count_higher_pairs lows ∧
      REQUIRED_PAIRS ≤ count_higher_pairs highs := by
  have h' : (decide (count_higher_pairs lows ≥ REQUIRED_PAIRS) &&
      decide (count_higher_pairs highs ≥ REQUIRED_PAIRS)) = true := h
  have := (Bool.and_eq_true _ _).mp h'
  exact ⟨of_decide_eq_true this.1, of_decide_eq_true this.2⟩

/-- Python `process_bar` on a bullish reversal appends a pivot low at the
current bar's low. -/
theorem process_bar_bullish (st : PivotState) (bars : List Bar) (i : ℕ) (b : Bar)
    (p : CandlePattern) (hlen : ¬bars.length < 2) (hlast : bars.getLast? = some b)
    (hpat : detect_bullish_reversal bars = some p) :
    process_bar st bars i =
      ({ st with pivot_lows := st.pivot_lows ++
          [{ type := PivotType.LOW, price := b.low, timestamp := b.timestamp
             bar_index := i, pattern := p }] },
        some { type := PivotType.LOW, price := b.low, timestamp := b.timestamp
               bar_index := i, pattern := p }) := by
  unfold process_bar
  rw [if_neg hlen, hlast]
  dsimp only
  rw [hpat]

/-- A positive higher-pairs count pins down the last two elements: the
list has at least two entries and the second-to-last price is below the
last price. -/
theorem count_higher_pairs_pos {ps : List Pivot}
    (h : 1 ≤ count_higher_pairs ps) :
    ∃ q r, ps.getLast? = some r ∧ ps.dropLast.getLast? = some q ∧
      q.price < r.price ∧ 2 ≤ ps.length := by
  rw [count_higher_pairs_eq_aux, ← List.map_reverse] at h
  match hrs : ps.reverse with
  | [] => rw [hrs] at h; exact absurd h (by simp [count_higher_aux])
  | [r] => rw [hrs] at h; exact absurd h (by simp [count_higher_aux])
  | r :: q :: rest =>
    rw [hrs] at h
    rw [List.map_cons, List.map_cons] at h
    simp only [count_higher_aux] at h
    have hqr : q.price < r.price := by
      by_contra hc
      rw [if_neg hc] at h
      exact absurd h (by simp)
    have hps : ps = (q :: rest).reverse ++ [r] := by
      have hrev := congrArg List.reverse hrs
      rw [List.reverse_reverse] at hrev
      rw [hrev, List.reverse_cons]
    refine ⟨q, r, ?_, ?_, hqr, ?_⟩
    · rw [hps, List.getLast?_concat]
    · rw [hps, List.dropLast_concat, List.getLast?_reverse]
      rfl
    · have hl := congrArg List.length hrs
      rw [List.length_reverse] at hl
      rw [hl]
      simp [List.length_cons]

theorem listMean_nonneg {l : List ℚ} (h : ∀ x ∈ l, 0 ≤ x) : 0 ≤ listMean l := by
  unfold listMean
  split
  · exact le_refl 0
  · apply div_nonneg
    · exact List.sum_nonneg h
    · exact_mod_cast Nat.zero_le _

theorem trueRanges_nonneg (bars : List Bar) : ∀ x ∈ trueRanges bars, 0 ≤ x := by
  intro x hx
  unfold trueRanges at hx
  rcases List.mem_map.mp hx with ⟨pq, _, rfl⟩
  have habs : (0 : ℚ) ≤ |pq.2.high - pq.1.close| := abs_nonneg _
  exact le_trans habs (le_trans (le_max_left _ _) (le_max_right _ _))

/-- The ATR is never negative. -/
theorem calculate_atr_nonneg {bars : List Bar} {period : ℕ} {a : ℚ}
    (h : calculate_atr bars period = some a) : 0 ≤ a := by
  unfold calculate_atr at h
  by_cases hl : bars.length < period + 1
  · rw [if_pos hl] at h; cases h
  · rw [if_neg hl] at h
    have := Option.some.inj h
    rw [← this]
    apply listMean_nonneg
    intro x hx
    exact trueRanges_nonneg bars x (List.mem_of_mem_drop hx)

/-! ## Lemmas about the pivot-scan run -/

theorem process_bar_index {st : PivotState} {bars : List Bar} {i : ℕ} {piv : Pivot}
    (h : (process_bar st bars i).2 = some piv) : piv.bar_index = i := by
  unfold process_bar at h
  by_cases hlen : bars.length < 2
  · rw [if_pos hlen] at h; cases h
  rw [if_neg hlen] at h
  cases hcur : bars.getLast? with
  | none => rw [hcur] at h; cases h
  | some cur =>
    rw [hcur] at h
    dsimp only at h
    cases hbull : detect_bullish_reversal bars with
    | some bp =>
      rw [hbull] at h
      dsimp only at h
      rw [← Option.some.inj h]
    | none =>
      rw [hbull] at h
      dsimp only at h
      cases hbear : detect_bearish_reversal bars with
      | some sp =>
        rw [hbear] at h
        dsimp only at h
        rw [← Option.some.inj h]
      | none =>
        rw [hbear] at h
        cases h

theorem detect_pivots_aux_index_lb (bars : List Bar) :
    ∀ (n i : ℕ) (st : PivotState), bars.length - i ≤ n →
      ∀ piv ∈ detect_pivots_aux bars st i, i ≤ piv.bar_index := by
  intro n
  induction n with
  | zero =>
    intro i st hn piv hmem
    rw [detect_pivots_aux, if_neg (by omega)] at hmem
    cases hmem
  | succ m ih =>
    intro i st hn piv hmem
    by_cases hi : i < bars.length
    · rw [detect_pivots_aux, if_pos hi] at hmem
      dsimp only at hmem
      rcases List.mem_append.mp hmem with hm | hm
      · have hsome : (process_bar st (bars.take (i + 1)) i).2 = some piv := by
          cases hp : (process_bar st (bars.take (i + 1)) i).2 with
          | none => rw [hp] at hm; cases hm
          | some x =>
            rw [hp] at hm
            cases hm with
            | head => rfl
            | tail _ htl => cases htl
        exact le_of_eq (process_bar_index hsome).symm
      · have := ih (i + 1) _ (by omega) piv hm
        omega
    · rw [detect_pivots_aux, if_neg hi] at hmem
      cases hmem

theorem detect_pivots_aux_pairwise (bars : List Bar) :
    ∀ (n i : ℕ) (st : PivotState), bars.length - i ≤ n →
      List.Pairwise (fun p q => p.bar_index < q.bar_index)
        (detect_pivots_aux bars st i) := by
  intro n
  induction n with
  | zero =>
    intro i st hn
    rw [detect_pivots_aux, if_neg (by omega)]
    exact List.Pairwise.nil
  | succ m ih =>
    intro i st hn
    by_cases hi : i < bars.length
    · rw [detect_pivots_aux, if_pos hi]
      dsimp only
      rw [List.pairwise_append]
      refine ⟨?_, ih (i + 1) _ (by omega), ?_⟩
      · cases (process_bar st (bars.take (i + 1)) i).2 with
        | none => exact List.Pairwise.nil
        | some x => exact List.pairwise_singleton _ _
      · intro a ha b hb
        have hai : a.bar_index = i := by
          cases hp : (process_bar st (bars.take (i + 1)) i).2 with
          | none => rw [hp] at ha; cases ha
          | some x =>
            rw [hp] at ha
            cases ha with
            | head => exact process_bar_index hp
            | tail _ htl => cases htl
        have hbi : i + 1 ≤ b.bar_index :=
          detect_pivots_aux_index_lb bars (bars.length - (i + 1)) (i + 1) _
            (le_refl _) b hb
        omega
    · rw [detect_pivots_aux, if_neg hi]
      exact List.Pairwise.nil

/-! ## Claims -/

/-- C1 counterexample: on an engine state whose pivot lists were loaded
independently of the bar history (`PivotDetector.load_pivots`), all
four BUY conditions pass and `check_signal` emits a signal whose
computed stop loss (≈ 696.7, below the loaded pivot at 700) is far
above the entry (131): the engine does NOT reject `stopLoss ≥ entry`
and does not return a check-only result — no such guard exists in
`check_signal`. -/
theorem claim_C1_counterexample :
    (check_signal slState).should_signal = true ∧
    ∃ s, (check_signal slState).signal = some s ∧ s.entry ≤ s.stop_loss := by
  refine ⟨by decide!, ?_⟩
  have h : ((check_signal slState).signal.map
      (fun s => decide (s.entry ≤ s.stop_loss))) = some true := by decide!
  cases hsig : (check_signal slState).signal with
  | none => rw [hsig] at h; cases h
  | some s =>
    rw [hsig] at h
    exact ⟨s, rfl, of_decide_eq_true (Option.some.inj h)⟩

/-- C1 (amended): every BUY signal emitted while the engine maintains
its own pivot state — `add_bar` runs the pivot detector on the very
bars `check_signal` then reads — satisfies
`stopLoss < entry < takeProfit`, provided the new bar is price-ordered
(`low ≤ close`), the stop-loss buffer is nonnegative and the
risk/reward ratio is positive.  The bound holds because a fired signal
forces the final bar to be a fresh pivot low above the previous pivot
low; `check_signal` itself contains no `stopLoss ≥ entry` rejection. -/
theorem claim_C1_theorem (st : EngineState) (bar : Bar)
    (hwf : bar.low ≤ bar.close)
    (hbuf : 0 ≤ st.cfg.sl_buffer_atr_mult)
    (hrr : 0 < st.cfg.risk_reward)
    (hs : ((add_bar st bar).2).should_signal = true) :
    ∃ s, ((add_bar st bar).2).signal = some s ∧
      s.stop_loss < s.entry ∧ s.entry < s.take_profit := by
  have hsnd : (add_bar st bar).2 =
      check_signal
        { cfg := st.cfg
          pivots := (process_bar st.pivots (st.bars ++ [bar])
            ((st.bars ++ [bar]).length - 1)).1
          bars := st.bars ++ [bar]
          previous_macd := st.previous_macd } := rfl
  rw [hsnd] at hs ⊢
  obtain ⟨cur, atr, hcur, h2, hatr, hc1, hc2, hc3, hsig⟩ := check_signal_fired hs
  dsimp only at hcur h2 hatr
  have hlast : (st.bars ++ [bar]).getLast? = some bar := List.getLast?_concat _
  have hbar : cur = bar := by
    have := hcur.symm.trans hlast
    exact Option.some.inj this
  rw [hbar] at hsig
  obtain ⟨p, hpat⟩ := cond_pattern_nil hc3
  dsimp only at hpat
  have hlen2 : ¬(st.bars ++ [bar]).length < 2 := Nat.not_lt.mpr h2
  have hproc := process_bar_bullish st.pivots (st.bars ++ [bar])
    ((st.bars ++ [bar]).length - 1) bar p hlen2 hlast hpat
  have hup := cond_uptrend_nil hc1
  dsimp only at hup
  have hcounts := analyze_uptrend_elim hup
  have h1le : 1 ≤ count_higher_pairs
      (process_bar st.pivots (st.bars ++ [bar])
        ((st.bars ++ [bar]).length - 1)).1.pivot_lows := by
    have h3 := hcounts.1
    unfold REQUIRED_PAIRS at h3
    omega
  obtain ⟨q, r, hlastp, hprev, hqr, hge2⟩ := count_higher_pairs_pos h1le
  have hrbar : r.price = bar.low := by
    have hlows : (process_bar st.pivots (st.bars ++ [bar])
        ((st.bars ++ [bar]).length - 1)).1.pivot_lows.getLast? =
        some { type := PivotType.LOW, price := bar.low, timestamp := bar.timestamp
               bar_index := (st.bars ++ [bar]).length - 1, pattern := p } := by
      rw [hproc]
      exact List.getLast?_concat _
    have hr := hlastp.symm.trans hlows
    rw [Option.some.inj hr]
  have hgpl : (process_bar st.pivots (st.bars ++ [bar])
      ((st.bars ++ [bar]).length - 1)).1.get_previous_pivot_low = some q := by
    unfold PivotState.get_previous_pivot_low
    rw [if_pos hge2]
    exact hprev
  obtain ⟨he, hsl, htp, -, -⟩ := create_signal_fields
    { cfg := st.cfg
      pivots := (process_bar st.pivots (st.bars ++ [bar])
        ((st.bars ++ [bar]).length - 1)).1
      bars := st.bars ++ [bar]
      previous_macd := st.previous_macd } bar atr
    (check_reasons
      { cfg := st.cfg
        pivots := (process_bar st.pivots (st.bars ++ [bar])
          ((st.bars ++ [bar]).length - 1)).1
        bars := st.bars ++ [bar]
        previous_macd := st.previous_macd } bar atr)
  dsimp only at he hsl htp
  rw [hgpl] at hsl htp
  have hatr0 : (0 : ℚ) ≤ atr := calculate_atr_nonneg hatr
  have hbufatr : (0 : ℚ) ≤ st.cfg.sl_buffer_atr_mult * atr := mul_nonneg hbuf hatr0
  have hsl_lt : q.price - st.cfg.sl_buffer_atr_mult * atr < bar.close := by
    have hq_lt : q.price < bar.low := by rw [← hrbar]; exact hqr
    linarith
  refine ⟨_, hsig, ?_, ?_⟩
  · rw [hsl, he]
    exact hsl_lt
  · rw [htp, he]
    dsimp only
    have hrisk : 0 < bar.close - (q.price - st.cfg.sl_buffer_atr_mult * atr) := by
      linarith
    have hprod := mul_pos hrr hrisk
    linarith

/-- C1 witness: the amended bound applied to the 16-bar signalling
scenario (state after 15 bars, final Hammer bar appended by
`add_bar`). -/
theorem claim_C1_witness :
    ∃ s, ((add_bar scenState15 scenFinalBar).2).signal = some s ∧
      s.stop_loss < s.entry ∧ s.entry < s.take_profit :=
  claim_C1_theorem scenState15 scenFinalBar (by decide!) (by decide!)
    (by decide!) (by decide!)

/-- C2: whenever all four BUY conditions pass, the produced signal has
entry = the current bar's close, stop loss = the second-to-last
pivot-low's price minus the SL buffer times ATR when such a pivot
exists (else the bar's low minus the buffer), take profit =
entry + rr·(entry − stopLoss), the configured default quantity, and
status Active. -/
theorem claim_C2_theorem (st : EngineState)
    (hs : (check_signal st).should_signal = true) :
    ∃ (bar : Bar) (atr : ℚ) (s : Signal),
      st.bars.getLast? = some bar ∧
      calculate_atr st.bars st.cfg.atr_period = some atr ∧
      (check_signal st).signal = some s ∧
      s.entry = bar.close ∧
      s.stop_loss = (match st.pivots.get_previous_pivot_low with
        | some p => p.price - st.cfg.sl_buffer_atr_mult * atr
        | none => bar.low - st.cfg.sl_buffer_atr_mult * atr) ∧
      s.take_profit = s.entry + st.cfg.risk_reward * (s.entry - s.stop_loss) ∧
      s.quantity = st.cfg.default_quantity ∧
      s.status = SignalStatus.ACTIVE := by
  obtain ⟨bar, atr, hcur, h2, hatr, hc1, hc2, hc3, hsig⟩ := check_signal_fired hs
  obtain ⟨he, hsl, htp, hq, hst⟩ :=
    create_signal_fields st bar atr (check_reasons st bar atr)
  refine ⟨bar, atr, _, hcur, hatr, hsig, he, hsl, ?_, hq, hst⟩
  rw [htp, he, hsl]

/-- C2 witness: the field characterization applied to the concrete
16-bar scenario on which the engine fires. -/
theorem claim_C2_witness :
    ∃ (bar : Bar) (atr : ℚ) (s : Signal),
      scenStateFull.bars.getLast? = some bar ∧
      calculate_atr scenStateFull.bars scenStateFull.cfg.atr_period = some atr ∧
      (check_signal scenStateFull).signal = some s ∧
      s.entry = bar.close ∧
      s.stop_loss = (match scenStateFull.pivots.get_previous_pivot_low with
        | some p => p.price - scenStateFull.cfg.sl_buffer_atr_mult * atr
        | none => bar.low - scenStateFull.cfg.sl_buffer_atr_mult * atr) ∧
      s.take_profit = s.entry + scenStateFull.cfg.risk_reward * (s.entry - s.stop_loss) ∧
      s.quantity = scenStateFull.cfg.default_quantity ∧
      s.status = SignalStatus.ACTIVE :=
  claim_C2_theorem scenStateFull (by decide!)

/-- C3 counterexample: with a single pivot low (price 10) and a single
pivot high, `higherLowsCount` is 0 while the longest strictly
increasing suffix of the pivot-low prices has length 1, so the count
does not equal the suffix length as the claim states. -/
theorem claim_C3_counterexample :
    (analyze [loadedLow 0 10 1] [loadedHigh 0 11 1]).higher_lows_count ≠
      specSuffixLen ([loadedLow 0 10 1].map Pivot.price) := by decide!

/-- C3 (amended): the TrendAnalyzer's `higherLowsCount` equals the
length of the longest strictly increasing suffix of the pivot-low
prices MINUS ONE when pivot-lows exist (and 0 for an empty list) — it
counts ascending adjacent pairs, not suffix elements; symmetrically for
`higherHighsCount`; and `is_uptrend` holds iff both counts are at least
3. -/
theorem claim_C3_theorem (pivot_lows pivot_highs : List Pivot) :
    specSuffixLen (pivot_lows.map Pivot.price) =
      (analyze pivot_lows pivot_highs).higher_lows_count
        + (if pivot_lows.isEmpty then 0 else 1) ∧
    specSuffixLen (pivot_highs.map Pivot.price) =
      (analyze pivot_lows pivot_highs).higher_highs_count
        + (if pivot_highs.isEmpty then 0 else 1) ∧
    ((analyze pivot_lows pivot_highs).is_uptrend = true ↔
      3 ≤ (analyze pivot_lows pivot_highs).higher_lows_count ∧
        3 ≤ (analyze pivot_lows pivot_highs).higher_highs_count) := by
  have hmap : ∀ ps : List Pivot, (ps.map Pivot.price).isEmpty = ps.isEmpty := by
    intro ps; cases ps <;> rfl
  refine ⟨?_, ?_, ?_⟩
  · rw [specSuffixLen_eq, hmap, ← count_higher_pairs_eq_aux]
    rfl
  · rw [specSuffixLen_eq, hmap, ← count_higher_pairs_eq_aux]
    rfl
  · show (decide (count_higher_pairs pivot_lows ≥ REQUIRED_PAIRS) &&
        decide (count_higher_pairs pivot_highs ≥ REQUIRED_PAIRS)) = true ↔ _
    rw [Bool.and_eq_true, decide_eq_true_eq, decide_eq_true_eq]
    exact Iff.rfl

/-- C4: for every well-formed bar, `is_hammer` holds iff the range is
positive, the body is at most 0.35 of the range, the lower shadow is at
least 0.4 of the range, a positive body additionally requires
`lowerShadow ≥ 1.8 · body` and `upperShadow ≤ 1.2 · body`, and a zero
body (doji) additionally requires `lowerShadow ≥ 0.6 · range`. -/
theorem claim_C4_theorem (bar : Bar) (h : bar.WellFormed) :
    is_hammer bar = true ↔
      (0 < bar.total_range ∧
       bar.body_size ≤ 35/100 * bar.total_range ∧
       4/10 * bar.total_range ≤ bar.lower_shadow ∧
       (0 < bar.body_size → 18/10 * bar.body_size ≤ bar.lower_shadow ∧
         bar.upper_shadow ≤ 12/10 * bar.body_size) ∧
       (bar.body_size = 0 → 6/10 * bar.total_range ≤ bar.lower_shadow)) := by
  obtain ⟨hlo, hhi⟩ := h
  have hr0 : 0 ≤ bar.total_range := by
    unfold Bar.total_range
    have : bar.low ≤ bar.high :=
      le_trans hlo (le_trans (min_le_max) hhi)
    linarith
  have hb0 : 0 ≤ bar.body_size := abs_nonneg _
  unfold is_hammer
  by_cases hz : bar.total_range = 0
  · rw [if_pos hz]
    simp only [Bool.false_eq_true, false_iff]
    rintro ⟨hpos, -⟩
    rw [hz] at hpos
    exact lt_irrefl 0 hpos
  · rw [if_neg hz]
    have htr : 0 < bar.total_range := lt_of_le_of_ne hr0 (Ne.symm hz)
    simp only
    split_ifs with h1 h2 h3 h4 h5 h6
    · -- body/range too large
      simp only [Bool.false_eq_true, false_iff]
      rintro ⟨-, hbody, -⟩
      have := (lt_div_iff₀ htr).mp h1
      linarith
    · -- lower shadow below 0.4·range
      simp only [Bool.false_eq_true, false_iff]
      rintro ⟨-, -, hls, -⟩
      linarith
    · -- positive body, shadow/body ratio too small
      simp only [Bool.false_eq_true, false_iff]
      rintro ⟨-, -, -, himp, -⟩
      have := (div_lt_iff₀ h3).mp h4
      have := (himp h3).1
      linarith
    · -- positive body, upper shadow too large
      simp only [Bool.false_eq_true, false_iff]
      rintro ⟨-, -, -, himp, -⟩
      have := (himp h3).2
      linarith
    · -- positive body, all checks pass
      simp only [true_iff]
      refine ⟨htr, ?_, ?_, fun _ => ⟨?_, ?_⟩, fun hbz => absurd hbz (ne_of_gt h3)⟩
      · exact (div_le_iff₀ htr).mp (le_of_not_lt (fun hc => h1 hc))
      · linarith [le_of_not_lt h2]
      · have := le_of_not_lt h4
        have := (le_div_iff₀ h3).mp this
        linarith
      · linarith [le_of_not_lt h5]
    · -- zero body, doji lower-shadow check fails
      simp only [Bool.false_eq_true, false_iff]
      rintro ⟨-, -, -, -, himp⟩
      have hbz : bar.body_size = 0 := le_antisymm (le_of_not_lt h3) hb0
      have := himp hbz
      linarith
    · -- zero body, doji check passes
      simp only [true_iff]
      have hbz : bar.body_size = 0 := le_antisymm (le_of_not_lt h3) hb0
      refine ⟨htr, ?_, ?_, fun hbp => absurd hbz (ne_of_gt hbp), fun _ => ?_⟩
      · rw [hbz]; positivity
      · linarith [le_of_not_lt h2]
      · linarith [le_of_not_lt h6]

/-- C4 witness: the characterization instantiated at the concrete
Hammer bar `(100, 101, 95, 100.5)`. -/
theorem claim_C4_witness :
    is_hammer hammerBar = true ↔
      (0 < hammerBar.total_range ∧
       hammerBar.body_size ≤ 35/100 * hammerBar.total_range ∧
       4/10 * hammerBar.total_range ≤ hammerBar.lower_shadow ∧
       (0 < hammerBar.body_size → 18/10 * hammerBar.body_size ≤ hammerBar.lower_shadow ∧
         hammerBar.upper_shadow ≤ 12/10 * hammerBar.body_size) ∧
       (hammerBar.body_size = 0 → 6/10 * hammerBar.total_range ≤ hammerBar.lower_shadow)) :=
  claim_C4_theorem hammerBar (by decide!)

/-- C5 counterexample: on the closes `[0, 2, 1]` with period 2 there
are enough closes and `avgLoss ≠ 0`, yet `calculate_rsi` does not
return `100 - 100/(1 + avgGain/avgLoss)` — the code rounds the result
to two decimal places (it returns 66.67 instead of 200/3). -/
theorem claim_C5_counterexample :
    2 + 1 ≤ ([0, 2, 1] : List ℚ).length ∧
    (rsiAvgs [0, 2, 1] 2).2 ≠ 0 ∧
    calculate_rsi [0, 2, 1] 2 ≠
      some (100 - 100 / (1 + (rsiAvgs [0, 2, 1] 2).1 / (rsiAvgs [0, 2, 1] 2).2)) := by
  refine ⟨by decide, by decide!, by decide!⟩

/-- C5 (amended): `calculate_rsi` returns none exactly when fewer than
`period + 1` closes exist; otherwise it seeds the Wilder averages as
the simple means of the gains and losses over the first `period` diffs
and smooths the remaining diffs with
`avg ← (avg·(period-1) + x)/period`; it returns exactly 100 when the
average loss is 0, and otherwise `100 - 100/(1 + avgGain/avgLoss)`
ROUNDED to two decimal places. -/
theorem claim_C5_theorem (closes : List ℚ) (period : ℕ) :
    (calculate_rsi closes period = none ↔ closes.length < period + 1) ∧
    (period + 1 ≤ closes.length →
      (rsiAvgs closes period).1 =
        ((wherePositive (listDiff closes)).drop period).foldl
          (fun avg x => (avg * ((period : ℚ) - 1) + x) / period)
          (listMean ((wherePositive (listDiff closes)).take period)) ∧
      (rsiAvgs closes period).2 =
        ((whereNegativeAbs (listDiff closes)).drop period).foldl
          (fun avg x => (avg * ((period : ℚ) - 1) + x) / period)
          (listMean ((whereNegativeAbs (listDiff closes)).take period)) ∧
      ((rsiAvgs closes period).2 = 0 → calculate_rsi closes period = some 100) ∧
      ((rsiAvgs closes period).2 ≠ 0 →
        calculate_rsi closes period =
          some (roundTo2 (100 - 100 /
            (1 + (rsiAvgs closes period).1 / (rsiAvgs closes period).2))))) := by
  constructor
  · unfold calculate_rsi
    by_cases h : closes.length < period + 1
    · rw [if_pos h]
      simp [h]
    · rw [if_neg h]
      by_cases hz : (rsiAvgs closes period).2 = 0
      · rw [if_pos hz]
        simp [h]
      · rw [if_neg hz]
        simp [h]
  · intro hlen
    refine ⟨rsiAvgs_fst closes period, rsiAvgs_snd closes period, ?_, ?_⟩
    · intro hz
      unfold calculate_rsi
      rw [if_neg (Nat.not_lt.mpr hlen), if_pos hz]
    · intro hz
      unfold calculate_rsi
      rw [if_neg (Nat.not_lt.mpr hlen), if_neg hz]

/-- C5 witness: the amended formula evaluated at closes `[0, 2, 1]`
with period 2. -/
theorem claim_C5_witness :
    calculate_rsi [0, 2, 1] 2 =
      some (roundTo2 (100 - 100 /
        (1 + (rsiAvgs [0, 2, 1] 2).1 / (rsiAvgs [0, 2, 1] 2).2))) :=
  ((claim_C5_theorem [0, 2, 1] 2).2 (by decide)).2.2.2 (by decide!)

/-- C6 counterexample: with the default configuration (RSI and ATR
periods both 14) and a 3-bar history — fewer than `RSI_PERIOD + 1`
closes — `check_signal` hits the earlier ATR guard: the only failed
condition reads "ATR not available (need more data)", the Confirmation
condition is never evaluated, and no reason mentions "RSI=N/A". -/
theorem claim_C6_counterexample :
    shortState.bars.length < shortState.cfg.rsi_period + 1 ∧
    calculate_rsi (shortState.bars.map Bar.close) shortState.cfg.rsi_period = none ∧
    (check_signal shortState).failed_conditions = ["ATR not available (need more data)"] ∧
    ((check_signal shortState).failed_conditions.any
      (fun m => strMentions m "RSI=N/A")) = false := by
  refine ⟨by decide, by decide!, by decide!, by decide!⟩

/-- C6 (amended): whenever `check_signal` actually reaches the
Confirmation condition with fewer than `RSI_PERIOD + 1` closes — i.e.
at least 2 bars, ATR available (possible only when the ATR period is
smaller than the RSI period), and MACD still warming up
(`RSI_PERIOD + 1 ≤ MACD_SLOW + MACD_SIGNAL`) — the RSI value is absent
and the result lists a failed condition mentioning "RSI=N/A".  With the
default periods the earlier ATR guard fires instead. -/
theorem claim_C6_theorem (st : EngineState)
    (h2 : 2 ≤ st.bars.length)
    (hatr : (calculate_atr st.bars st.cfg.atr_period).isSome = true)
    (hshort : st.bars.length < st.cfg.rsi_period + 1)
    (hmacd : st.cfg.rsi_period + 1 ≤ st.cfg.macd_slow + st.cfg.macd_signal) :
    calculate_rsi (st.bars.map Bar.close) st.cfg.rsi_period = none ∧
    (check_signal st).should_signal = false ∧
    ∃ m ∈ (check_signal st).failed_conditions, strMentions m "RSI=N/A" = true := by
  have hclen : (st.bars.map Bar.close).length = st.bars.length := List.length_map _ _
  have hrsi : calculate_rsi (st.bars.map Bar.close) st.cfg.rsi_period = none :=
    calculate_rsi_of_short (by rw [hclen]; exact hshort)
  obtain ⟨atr, hatr'⟩ := Option.isSome_iff_exists.mp hatr
  obtain ⟨cur, hcur⟩ := getLast?_some_of_two_le h2
  have hlen : ¬st.bars.length < 2 := Nat.not_lt.mpr h2
  have heq := check_signal_eq st cur atr hlen hcur hatr'
  have hrsi' : (engine_indicators st).rsi = none := hrsi
  have hmacd' : calculate_macd (st.bars.map Bar.close) st.cfg.macd_fast
      st.cfg.macd_slow st.cfg.macd_signal = none :=
    calculate_macd_of_short (by rw [hclen]; omega)
  have hc4 : (cond_confirmation st (engine_indicators st)).2 =
      ["No confirmation (MACD no cross, RSI=N/A)"] := by
    unfold cond_confirmation
    rw [hrsi']
    dsimp only
    rw [hmacd']
    dsimp only [check_macd_crossover]
    decide!
  have hfail_ne : ¬(decide ((check_failed st cur atr).length = 0) &&
      decide ((check_reasons st cur atr).length ≥ 4)) = true := by
    intro hall
    have h0 := of_decide_eq_true ((Bool.and_eq_true _ _).mp hall).1
    unfold check_failed at h0
    rw [hc4] at h0
    simp [List.length_append] at h0
  refine ⟨hrsi, ?_, ?_⟩
  · rw [heq, if_neg hfail_ne]
  · rw [heq, if_neg hfail_ne]
    refine ⟨"No confirmation (MACD no cross, RSI=N/A)", ?_, by decide!⟩
    unfold check_failed
    apply List.mem_append_right
    rw [hc4]
    exact List.mem_singleton_self _

/-- C6 witness: an engine with ATR period 2 but RSI period 14 on four
bars — ATR present, RSI absent — reports the Confirmation failure
mentioning "RSI=N/A". -/
theorem claim_C6_witness :
    calculate_rsi (shortRsiState.bars.map Bar.close) shortRsiState.cfg.rsi_period = none ∧
    (check_signal shortRsiState).should_signal = false ∧
    ∃ m ∈ (check_signal shortRsiState).failed_conditions,
      strMentions m "RSI=N/A" = true :=
  claim_C6_theorem shortRsiState (by decide) (by decide!) (by decide) (by decide)

/-- C7: over any full scan (`detect_pivots_from_bars`), the emitted
pivots carry strictly increasing `barIndex` in detection order; a bar
on which a bullish reversal fires always yields a pivot LOW and leaves
the pivot-high list untouched (bearish is consulted only when bullish
fails, so a single bar never yields both); and every emitted pivot is
stamped with the index of the bar that produced it — so each bar yields
at most the one pivot returned by `process_bar`. -/
theorem claim_C7_theorem (bars : List Bar) :
    List.Pairwise (fun p q => p.bar_index < q.bar_index)
      (detect_pivots_emitted bars) ∧
    (∀ (st : PivotState) (w : List Bar) (i : ℕ), 2 ≤ w.length →
      detect_bullish_reversal w ≠ none →
      ∃ piv, (process_bar st w i).2 = some piv ∧ piv.type = PivotType.LOW ∧
        (process_bar st w i).1.pivot_highs = st.pivot_highs) ∧
    (∀ (st : PivotState) (w : List Bar) (i : ℕ) (piv : Pivot),
      (process_bar st w i).2 = some piv → piv.bar_index = i) := by
  refine ⟨?_, ?_, fun st w i piv h => process_bar_index h⟩
  · exact detect_pivots_aux_pairwise bars (bars.length - 1) 1 {} (le_refl _)
  · intro st w i h2 hpat
    obtain ⟨p, hp⟩ := Option.ne_none_iff_exists'.mp hpat
    obtain ⟨b, hb⟩ := getLast?_some_of_two_le h2
    have heq := process_bar_bullish st w i b p (Nat.not_lt.mpr h2) hb hp
    refine ⟨{ type := PivotType.LOW, price := b.low, timestamp := b.timestamp
              bar_index := i, pattern := p }, ?_, rfl, ?_⟩
    · rw [heq]
    · rw [heq]

/-- C7 witness: the pairwise bound on the 16-bar scenario, and the
bullish-wins conjunct applied to a concrete 2-bar window whose tail is
a Hammer. -/
theorem claim_C7_witness :
    List.Pairwise (fun p q => p.bar_index < q.bar_index)
      (detect_pivots_emitted scenBars) ∧
    ∃ piv, (process_bar {} [mkBar 0 100 104 100 104, mkBar 1 110 111 101 111] 1).2 =
        some piv ∧ piv.type = PivotType.LOW ∧
      (process_bar {} [mkBar 0 100 104 100 104, mkBar 1 110 111 101 111] 1).1.pivot_highs =
        PivotState.pivot_highs {} :=
  ⟨(claim_C7_theorem scenBars).1,
    (claim_C7_theorem scenBars).2.1 {}
      [mkBar 0 100 104 100 104, mkBar 1 110 111 101 111] 1
      (by decide) (by decide!)⟩

/-- C8: the move-to-breakeven transition fires only on an Active signal
whose stop is still below entry, only when the price reaches
`breakevenPrice = entry + (entry - stopLoss)`; it sets the stop to the
entry and the status to Breakeven; afterwards `should_move_to_breakeven`
is always false, and along any sequence of bars the backtester performs
the transition at most once per signal. -/
theorem claim_C8_theorem (s : Signal) (p : ℚ)
    (h : s.should_move_to_breakeven p = true) :
    s.status = SignalStatus.ACTIVE ∧
    s.stop_loss < s.entry ∧
    s.entry + (s.entry - s.stop_loss) ≤ p ∧
    s.move_to_breakeven.stop_loss = s.entry ∧
    s.move_to_breakeven.status = SignalStatus.BREAKEVEN ∧
    (∀ q, s.move_to_breakeven.should_move_to_breakeven q = false) ∧
    (∀ (c : ℚ) (t : List Trade) (bars : List Bar),
      breakeven_count { position := some s, capital := c, trades := t } bars ≤ 1) := by
  obtain ⟨h1, h2, h3⟩ := should_move_true_elim h
  refine ⟨h1, h2, h3, rfl, rfl, ?_, ?_⟩
  · intro q
    apply should_move_false_of_inactive
    unfold Signal.move_to_breakeven
    simp
  · intro c t bars
    exact breakeven_at_most_once bars _

/-- C8 witness: a concrete Active signal (entry 10, stop 8) for which a
bar high of 12 triggers the transition. -/
theorem claim_C8_witness :
    breakevenSignal.status = SignalStatus.ACTIVE ∧
    breakevenSignal.stop_loss < breakevenSignal.entry ∧
    breakevenSignal.entry + (breakevenSignal.entry - breakevenSignal.stop_loss) ≤ 12 ∧
    breakevenSignal.move_to_breakeven.stop_loss = breakevenSignal.entry ∧
    breakevenSignal.move_to_breakeven.status = SignalStatus.BREAKEVEN ∧
    (∀ q, breakevenSignal.move_to_breakeven.should_move_to_breakeven q = false) ∧
    (∀ (c : ℚ) (t : List Trade) (bars : List Bar),
      breakeven_count { position := some breakevenSignal, capital := c, trades := t } bars ≤ 1) :=
  claim_C8_theorem breakevenSignal 12 (by decide!)

/-- C9: on the concrete failing input (an open position whose stop loss
is exactly 0 and a bar whose low reaches 0), the stop-loss exit
condition `low ≤ stopLoss` holds, yet `_check_positions` closes
nothing: the Python guard `if exit_price:` treats the exit price `0.0`
as falsy, so the state is returned unchanged — no trade, position still
open — contradicting the specified "exit at stopLoss, reason SL". -/
theorem claim_C9_theorem :
    zeroLowBar.low ≤ zeroSlSignal.stop_loss ∧
    check_positions zeroSlBTState zeroLowBar = zeroSlBTState ∧
    zeroSlBTState.position = some zeroSlSignal ∧
    zeroSlBTState.trades = [] := by
  refine ⟨by decide!, by decide!, rfl, rfl⟩

/-- C10: `process_bar` never emits a pivot (and leaves the detector
state unchanged) while the bar history holds fewer than 2 bars, even
though `detect_bullish_reversal` accepts a single-bar history: the
concrete Hammer bar `(100, 101, 95, 100.5)` classifies as a bullish
reversal on its own, yet processing it as the only bar yields no
pivot. -/
theorem claim_C10_theorem :
    (∀ (st : PivotState) (bars : List Bar) (i : ℕ), bars.length < 2 →
      process_bar st bars i = (st, none)) ∧
    detect_bullish_reversal [hammerBar] = some CandlePattern.HAMMER ∧
    (∀ (st : PivotState) (i : ℕ), process_bar st [hammerBar] i = (st, none)) := by
  refine ⟨?_, by decide!, ?_⟩
  · intro st bars i h
    unfold process_bar
    rw [if_pos h]
  · intro st i
    unfold process_bar
    rw [if_pos (by decide : ([hammerBar] : List Bar).length < 2)]

/-- C10 witness: the first conjunct applied to the single-bar history. -/
theorem claim_C10_witness :
    process_bar {} [hammerBar] 0 = ({}, none) :=
  claim_C10_theorem.1 {} [hammerBar] 0 (by decide)

end BotTrade
